import Mathlib

/-!
Verification of the Detection Interpretation & Guidance Message Engine of the
vision-guide repository, together with the frontend detection-result and query
logic of src/frontend/app.js.

The repository ships the engine behind a FastAPI backend (main.py) that is not
part of the source tree available here; the engine definitions below are
modelled from the specification (spec.md sections 3, 4 and 6), which was
written from that code.  The frontend definitions (UIState, askQuestion) are
translated directly from src/frontend/app.js.

All numeric quantities (pixel coordinates, confidences, thresholds) are
embedded as rational numbers: the Python source manipulates them as floats,
but every computation the spec describes (midpoints, thirds, area quotients,
comparisons against 0.25/0.08/min_confidence) is exact rational arithmetic.
-/

namespace VisionGuide

/-! ## String helpers -/

/-- Lower-case a single ASCII character (model of Python `str.lower` /
JS `toLowerCase` restricted to the ASCII range the queries use). -/
def lowCh (c : Char) : Char :=
  if 'A' ≤ c ∧ c ≤ 'Z' then Char.ofNat (c.toNat + 32) else c

/-- Lower-case a string, character by character. -/
def lowerStr (s : String) : String :=
  String.mk (s.data.map lowCh)

/-- Does `pat` occur as a leading block of `l`? -/
def headMatch : List Char → List Char → Bool
  | [], _ => true
  | _ :: _, [] => false
  | c :: cs, d :: ds => c == d && headMatch cs ds

/-- Does `pat` occur as a contiguous block anywhere in `l`? -/
def hasSub (pat : List Char) : List Char → Bool
  | [] => headMatch pat []
  | c :: cs => headMatch pat (c :: cs) || hasSub pat cs

/-- Substring test on strings. -/
def strHasSub (s pat : String) : Bool :=
  hasSub pat.data s.data

/-- Capitalize the first character of a string. -/
def capWord (s : String) : String :=
  match s.data with
  | [] => s
  | c :: cs => String.mk (Char.toUpper c :: cs)

/-- Join clauses with ". " between consecutive clauses. -/
def joinClauses : List String → String
  | [] => ""
  | [c] => c
  | c :: d :: ds => c ++ ". " ++ joinClauses (d :: ds)

/-! ## Data model (spec section 3) -/

/-- Axis-aligned bounding box in pixel coordinates. -/
structure BBox where
  x_min : ℚ
  y_min : ℚ
  x_max : ℚ
  y_max : ℚ
deriving DecidableEq

/-- One raw detection produced by the external model. -/
structure RawDetection where
  class_name : String
  confidence : ℚ
  bbox : BBox
deriving DecidableEq

/-- Per-request frame context. -/
structure FrameContext where
  frame_width : ℚ
  frame_height : ℚ
  min_confidence : ℚ
deriving DecidableEq

/-- Horizontal position bucket. -/
inductive Position where
  | left
  | center
  | right
deriving DecidableEq, BEq

/-- Distance bucket. -/
inductive Distance where
  | close
  | medium
  | far
deriving DecidableEq, BEq

/-- A raw detection annotated with derived position, distance, priority and
center, as produced by the Geometry Classifier and Priority Table. -/
structure AnnotatedDetection where
  class_name : String
  confidence : ℚ
  bbox : BBox
  position : Position
  distance : Distance
  priority : Int
  center : ℚ × ℚ
deriving DecidableEq

/-- The spoken guidance output. -/
structure GuidanceMessage where
  text : String
  query : Option String
deriving DecidableEq

/-- Query intent categories. -/
inductive QueryIntent where
  | person_presence
  | obstacle_presence
  | general_description
  | unrecognized
deriving DecidableEq

/-! ## Priority Table (spec section 4.2)

Modelled from the spec: the backend main.py holding the static class-priority
mapping is not in the source tree; the table below is the mapping spelled out
in spec section 4.2 (and repeated in the repository README's priority table).
-/

/-- Static priority table: class name to integer priority. -/
def priorityTable : List (String × Int) :=
  [("person", 10), ("car", 10), ("stairs", 10),
   ("truck", 9), ("bus", 9),
   ("bicycle", 8), ("motorcycle", 8), ("traffic_light", 8),
   ("chair", 7), ("bench", 7), ("dog", 7),
   ("door", 6), ("couch", 6), ("cat", 6),
   ("table", 5)]

/-- Priority lookup: `none` for a class absent from the table. -/
def priority_of (c : String) : Option Int :=
  (priorityTable.find? (fun e => e.1 == c)).map Prod.snd

/-- A class is navigation-relevant iff it appears in the priority table. -/
def is_relevant (c : String) : Bool :=
  priorityTable.any (fun e => e.1 == c)

/-- Priority value used on annotated detections (only ever applied to
relevant classes, where the lookup succeeds). -/
def prioVal (c : String) : Int :=
  (priority_of c).getD 0

/-! ## Geometry Classifier (spec section 4.1)

Modelled from the spec: the geometry logic of the missing backend main.py,
following the formulas of spec section 4.1.
-/

/-- Distance threshold: `close` when the area quotient exceeds 1/4. -/
def closeThr : ℚ := 1/4

/-- Distance threshold: `medium` when the area quotient exceeds 2/25 (= 0.08). -/
def mediumThr : ℚ := 2/25

/-- Bounding-box center. -/
def centerOf (b : BBox) : ℚ × ℚ :=
  ((b.x_min + b.x_max) / 2, (b.y_min + b.y_max) / 2)

/-- Position bucket: thirds of the frame width. -/
def positionOf (b : BBox) (w : ℚ) : Position :=
  if (centerOf b).1 < w / 3 then Position.left
  else if (centerOf b).1 > 2 * w / 3 then Position.right
  else Position.center

/-- Clamp a bounding box to the frame bounds. -/
def clampBBox (b : BBox) (w h : ℚ) : BBox :=
  ⟨max 0 (min b.x_min w), max 0 (min b.y_min h),
   max 0 (min b.x_max w), max 0 (min b.y_max h)⟩

/-- Raw bounding-box area. -/
def bboxArea (b : BBox) : ℚ :=
  (b.x_max - b.x_min) * (b.y_max - b.y_min)

/-- Area of the bounding box relative to the frame area (the spec's
`area_ratio`), computed on the clamped box. -/
def areaFrac (b : BBox) (w h : ℚ) : ℚ :=
  bboxArea (clampBBox b w h) / (w * h)

/-- Distance bucket from the relative area. -/
def distanceOf (b : BBox) (w h : ℚ) : Distance :=
  if areaFrac b w h > closeThr then Distance.close
  else if areaFrac b w h > mediumThr then Distance.medium
  else Distance.far

/-- Annotate one raw detection with derived geometry and priority data. -/
def annotateDet (d : RawDetection) (ctx : FrameContext) : AnnotatedDetection :=
  { class_name := d.class_name
    confidence := d.confidence
    bbox := d.bbox
    position := positionOf d.bbox ctx.frame_width
    distance := distanceOf d.bbox ctx.frame_width ctx.frame_height
    priority := prioVal d.class_name
    center := centerOf d.bbox }

/-! ## Detection Filter & Ranker (spec section 4.3)

Modelled from the spec: the filter/sort/truncate pipeline of the missing
backend main.py, following spec section 4.3.  Detections are tagged with
their original input index, which serves as the final sort tie-breaker so the
output is a deterministic function of the input list.
-/

/-- Maximum number of ranked detections returned (spec default). -/
def maxDetections : Nat := 10

/-- Distance rank used by the sort: close = 0, medium = 1, far = 2. -/
def distRank : Distance → Nat
  | Distance.close => 0
  | Distance.medium => 1
  | Distance.far => 2

/-- Tag list elements with their indices, starting at `n`. -/
def withIdx (n : Nat) : List α → List (Nat × α)
  | [] => []
  | a :: as => (n, a) :: withIdx (n + 1) as

/-- Boolean `≤` on rationals. -/
def qleB (a b : ℚ) : Bool := decide (a ≤ b)

/-- Lexicographic combination: compare the first (rational) components,
breaking ties with `le` on the second components. -/
def qlexPair (le : β → β → Bool) (p q : ℚ × β) : Bool :=
  decide (p.1 < q.1) || (decide (p.1 = q.1) && le p.2 q.2)

/-- Sort key of an indexed annotated detection: priority descending,
distance rank ascending, bounding-box area descending, input index
ascending (negations encode the descending components). -/
def sortKey (x : Nat × AnnotatedDetection) : ℚ × ℚ × ℚ × ℚ :=
  (-(x.2.priority : ℚ),
    ((distRank x.2.distance : ℚ),
      (-(bboxArea x.2.bbox), (x.1 : ℚ))))

/-- Boolean sort order on indexed annotated detections. -/
def rankLeB (a b : Nat × AnnotatedDetection) : Bool :=
  qlexPair (qlexPair (qlexPair qleB)) (sortKey a) (sortKey b)

/-- Sort order on indexed annotated detections, as a relation. -/
def rankLe (a b : Nat × AnnotatedDetection) : Prop :=
  rankLeB a b = true

instance : DecidableRel rankLe := fun a b => instDecidableEqBool (rankLeB a b) true

/-- Step 1 and 2 of the ranking algorithm: keep detections at or above the
confidence threshold whose class is navigation-relevant. -/
def keptOf (dets : List RawDetection) (ctx : FrameContext) : List (Nat × RawDetection) :=
  (withIdx 0 dets).filter
    (fun p => decide (ctx.min_confidence ≤ p.2.confidence) && is_relevant p.2.class_name)

/-- Steps 3 to 5: annotate, sort, truncate; indices retained. -/
def rankIndexed (dets : List RawDetection) (ctx : FrameContext) :
    List (Nat × AnnotatedDetection) :=
  (List.insertionSort rankLe
    ((keptOf dets ctx).map (fun p => (p.1, annotateDet p.2 ctx)))).take maxDetections

/-- The ranked detection set: `rank(raw_detections, frame_context)`. -/
def rank (dets : List RawDetection) (ctx : FrameContext) : List AnnotatedDetection :=
  (rankIndexed dets ctx).map Prod.snd

/-! ## Message Composer (spec section 4.4)

Modelled from the spec: the message-generation logic of the missing backend
main.py, following spec section 4.4: at most the top 3 ranked entries
contribute a clause; one clause per distinct (class, position, distance)
combination with merged counts; clause templates combine distance wording
(close urgent, medium "ahead", far "in the distance") with position wording
(center elided); clauses joined with ". ", terminal punctuation, capitalized;
empty input yields the fixed message "Path appears clear.".
-/

/-- Number word used when merging counts in a clause. -/
def countWord : Nat → String
  | 2 => "Two"
  | 3 => "Three"
  | n => toString n

/-- Plural form of a class name. -/
def pluralOf (c : String) : String :=
  if c == "person" then "people" else c ++ "s"

/-- Position wording; `center` is elided. -/
def posPhrase : Position → String
  | Position.left => " on your left"
  | Position.right => " on your right"
  | Position.center => ""

/-- Distance-intensity wording. -/
def distPhrase : Distance → String
  | Distance.close => "right in front of you"
  | Distance.medium => "ahead"
  | Distance.far => "in the distance"

/-- One spoken clause for `n` detections sharing a
(class, position, distance) combination. -/
def clauseText (n : Nat) (k : String × Position × Distance) : String :=
  capWord ((if n ≤ 1 then k.1 else countWord n ++ " " ++ pluralOf k.1)
    ++ posPhrase k.2.1 ++ " " ++ distPhrase k.2.2)

/-- Grouping key of an annotated detection. -/
def detKey (d : AnnotatedDetection) : String × Position × Distance :=
  (d.class_name, d.position, d.distance)

/-- Remove later duplicates, keeping the first occurrence of each element. -/
def dedupFirst (seen : List κ) [BEq κ] : List κ → List κ
  | [] => []
  | k :: ks => if seen.contains k then dedupFirst seen ks
               else k :: dedupFirst (k :: seen) ks

/-- The clauses narrated for a list of annotated detections: one clause per
distinct (class, position, distance) combination, with merged counts. -/
def clausesOf (l : List AnnotatedDetection) : List String :=
  (dedupFirst [] (l.map detKey)).map
    (fun k => clauseText ((l.map detKey).count k) k)

/-- The narrated text for a ranked detection set. -/
def composeText (r : List AnnotatedDetection) : String :=
  if r = [] then "Path appears clear."
  else joinClauses (clausesOf (r.take 3)) ++ "."

/-- `compose(ranked) -> GuidanceMessage`. -/
def compose (r : List AnnotatedDetection) : GuidanceMessage :=
  { text := composeText r, query := none }

/-! ## Query Interpreter (spec section 4.5)

Modelled from the spec: the query-answering logic of the missing backend
main.py, following spec section 4.5: keyword matching on the lowercased
query in fixed priority order with fallback to `general_description`.
-/

/-- Keyword predicate for `person_presence`: "person" or "people". -/
def personKw (q : String) : Bool :=
  strHasSub (lowerStr q) "person" || strHasSub (lowerStr q) "people"

/-- Keyword predicate for `obstacle_presence`: "obstacle", "ahead" or
"front". -/
def obstacleKw (q : String) : Bool :=
  strHasSub (lowerStr q) "obstacle" || strHasSub (lowerStr q) "ahead" ||
    strHasSub (lowerStr q) "front"

/-- Intent classification: first match wins, default `general_description`. -/
def classifyIntent (q : String) : QueryIntent :=
  if personKw q then QueryIntent.person_presence
  else if obstacleKw q then QueryIntent.obstacle_presence
  else QueryIntent.general_description

/-- `answer(query, ranked) -> GuidanceMessage`; the query is echoed back. -/
def answer (q : String) (r : List AnnotatedDetection) : GuidanceMessage :=
  match classifyIntent q with
  | QueryIntent.person_presence =>
    match r.filter (fun d => d.class_name == "person") with
    | [] => { text := "No people detected nearby.", query := some q }
    | p :: ps =>
      { text := "Yes, " ++ toString (p :: ps).length ++ " person(s) detected. "
          ++ clauseText (p :: ps).length ("person", p.position, p.distance) ++ "."
        query := some q }
  | QueryIntent.obstacle_presence =>
    if r = [] then { text := "No obstacles detected.", query := some q }
    else { text := joinClauses (clausesOf (r.take 3)) ++ ".", query := some q }
  | QueryIntent.general_description =>
    { text := composeText r, query := some q }
  | QueryIntent.unrecognized =>
    { text := composeText r, query := some q }

/-! ## Service boundary (spec section 6) -/

/-- Response of the `detect` call. -/
structure DetectResponse where
  message : String
  detections : List AnnotatedDetection
  frame_width : ℚ
  frame_height : ℚ
deriving DecidableEq

/-- `detect(detections, frame_width, frame_height, min_confidence)`. -/
def detect (dets : List RawDetection) (w h minc : ℚ) : DetectResponse :=
  { message := (compose (rank dets ⟨w, h, minc⟩)).text
    detections := rank dets ⟨w, h, minc⟩
    frame_width := w
    frame_height := h }

/-- Response of the `detect_with_query` call. -/
structure QueryResponse where
  message : String
  query : String
  detections : List AnnotatedDetection
deriving DecidableEq

/-- `detect_with_query(detections, frame_width, frame_height, min_confidence,
query)`. -/
def detect_with_query (dets : List RawDetection) (w h minc : ℚ) (q : String) :
    QueryResponse :=
  { message := (answer q (rank dets ⟨w, h, minc⟩)).text
    query := q
    detections := rank dets ⟨w, h, minc⟩ }

/-! ## Frontend detection loop (src/frontend/app.js) -/

/-- The frontend state relevant to `handleDetectionResult`: the message shown
in the UI, the last message handed to speech, and the log of texts passed to
`speak` (in order). -/
structure UIState where
  lastMessage : String
  displayed : String
  spoken : List String
deriving DecidableEq

/-- `handleDetectionResult` (src/frontend/app.js lines 236-247): always
update the displayed message; speak it and update `lastMessage` only when it
differs from the previous message. -/
def handleDetectionResult (st : UIState) (message : String) : UIState :=
  if message ≠ st.lastMessage then
    { lastMessage := message, displayed := message,
      spoken := st.spoken ++ [message] }
  else
    { lastMessage := st.lastMessage, displayed := message, spoken := st.spoken }

/-- The detection loop: handle a sequence of detection-result messages. -/
def runLoop (st : UIState) : List String → UIState
  | [] => st
  | m :: ms => runLoop (handleDetectionResult st m) ms

/-- The frontend fields `askQuestion` reads from the `VisionGuide` instance. -/
structure Guide where
  isRunning : Bool
  apiUrl : String
deriving DecidableEq

/-- Outcome of an `askQuestion` invocation: either the user is alerted and no
request is sent, or one HTTP request is issued to the given URL. -/
inductive AskOutcome where
  | alerted
  | requested (url : String)
deriving DecidableEq

/-- Characters `encodeURIComponent` leaves unescaped. -/
def uriUnreserved (c : Char) : Bool :=
  c.isAlphanum || c == '-' || c == '_' || c == '.' || c == '!' || c == '~' ||
    c == '*' || c == Char.ofNat 39 || c == '(' || c == ')'

/-- Upper-case hexadecimal digit. -/
def hexDigit (n : Nat) : Char :=
  if n < 10 then Char.ofNat (48 + n) else Char.ofNat (55 + n)

/-- UTF-8 bytes of a code point. -/
def utf8Bytes (n : Nat) : List Nat :=
  if n < 128 then [n]
  else if n < 2048 then [192 + n / 64, 128 + n % 64]
  else if n < 65536 then [224 + n / 4096, 128 + (n / 64) % 64, 128 + n % 64]
  else [240 + n / 262144, 128 + (n / 4096) % 64, 128 + (n / 64) % 64,
        128 + n % 64]

/-- Percent-encoding of one byte. -/
def pctByte (b : Nat) : List Char :=
  ['%', hexDigit (b / 16), hexDigit (b % 16)]

/-- JS `encodeURIComponent`: unreserved characters kept, all others
percent-encoded as UTF-8 bytes. -/
def encodeURIComponent (s : String) : String :=
  String.mk ((s.data.map (fun c =>
    if uriUnreserved c then [c] else (utf8Bytes c.toNat).map pctByte |>.flatten)).flatten)

/-- `askQuestion` (src/frontend/app.js lines 355-382): alert and return when
the instance is absent or not running; otherwise POST to
`/detect-with-query?query=<encoded query>`. -/
def askQuestion (guide : Option Guide) (query : String) : AskOutcome :=
  match guide with
  | none => AskOutcome.alerted
  | some g =>
    if !g.isRunning then AskOutcome.alerted
    else AskOutcome.requested
      (g.apiUrl ++ "/detect-with-query?query=" ++ encodeURIComponent query)

/-! ## Order properties of the ranking relation -/

theorem qleB_total (a b : ℚ) : qleB a b = true ∨ qleB b a = true := by
  simp only [qleB, decide_eq_true_eq]
  exact le_total a b

theorem qleB_trans (a b c : ℚ) (h1 : qleB a b = true) (h2 : qleB b c = true) :
    qleB a c = true := by
  simp only [qleB, decide_eq_true_eq] at h1 h2 ⊢
  exact h1.trans h2

theorem qlexPair_total (le : β → β → Bool)
    (hto : ∀ a b, le a b = true ∨ le b a = true) (p q : ℚ × β) :
    qlexPair le p q = true ∨ qlexPair le q p = true := by
  rcases lt_trichotomy p.1 q.1 with h | h | h
  · left; simp [qlexPair, h]
  · rcases hto p.2 q.2 with h2 | h2
    · left; simp [qlexPair, h, h2]
    · right; simp [qlexPair, h.symm, h2]
  · right; simp [qlexPair, h]

theorem qlexPair_trans (le : β → β → Bool)
    (htr : ∀ a b c, le a b = true → le b c = true → le a c = true)
    (p q r : ℚ × β) (hpq : qlexPair le p q = true) (hqr : qlexPair le q r = true) :
    qlexPair le p r = true := by
  simp only [qlexPair, Bool.or_eq_true, Bool.and_eq_true, decide_eq_true_eq]
    at hpq hqr ⊢
  rcases hpq with h1 | ⟨h1, h2⟩
  · rcases hqr with h3 | ⟨h3, h4⟩
    · exact Or.inl (h1.trans h3)
    · exact Or.inl (h3 ▸ h1)
  · rcases hqr with h3 | ⟨h3, h4⟩
    · exact Or.inl (h1 ▸ h3)
    · exact Or.inr ⟨h1.trans h3, htr _ _ _ h2 h4⟩

theorem rankLeB_total (a b : Nat × AnnotatedDetection) :
    rankLeB a b = true ∨ rankLeB b a = true :=
  qlexPair_total _
    (fun x y => qlexPair_total _
      (fun u v => qlexPair_total _ qleB_total u v) x y)
    (sortKey a) (sortKey b)

theorem rankLeB_trans (a b c : Nat × AnnotatedDetection)
    (h1 : rankLeB a b = true) (h2 : rankLeB b c = true) : rankLeB a c = true :=
  qlexPair_trans _
    (fun x y z => qlexPair_trans _
      (fun u v w => qlexPair_trans _ qleB_trans u v w) x y z)
    (sortKey a) (sortKey b) (sortKey c) h1 h2

instance : IsTotal (Nat × AnnotatedDetection) rankLe :=
  ⟨fun a b => rankLeB_total a b⟩

instance : IsTrans (Nat × AnnotatedDetection) rankLe :=
  ⟨fun a b c h1 h2 => rankLeB_trans a b c h1 h2⟩

/-- The strict ordering the ranked output satisfies between any earlier and
any later entry: priority strictly greater, or equal priority and strictly
smaller distance rank, or equal in both and strictly larger bounding-box
area, or equal in all three and strictly smaller original input index. -/
def rankAfter (a b : Nat × AnnotatedDetection) : Prop :=
  b.2.priority < a.2.priority ∨
    (a.2.priority = b.2.priority ∧
      (distRank a.2.distance < distRank b.2.distance ∨
        (distRank a.2.distance = distRank b.2.distance ∧
          (bboxArea b.2.bbox < bboxArea a.2.bbox ∨
            (bboxArea a.2.bbox = bboxArea b.2.bbox ∧ a.1 < b.1)))))

theorem rankLe_strict {a b : Nat × AnnotatedDetection}
    (h : rankLe a b) (hne : a.1 ≠ b.1) : rankAfter a b := by
  simp only [rankLe, rankLeB, qlexPair, qleB, sortKey, Bool.or_eq_true,
    Bool.and_eq_true, decide_eq_true_eq] at h
  rcases h with h1 | ⟨h1, h2 | ⟨h2, h3 | ⟨h3, h4⟩⟩⟩
  · exact Or.inl (by exact_mod_cast neg_lt_neg_iff.mp h1)
  · refine Or.inr ⟨?_, Or.inl (by exact_mod_cast h2)⟩
    exact_mod_cast neg_inj.mp h1
  · refine Or.inr ⟨?_, Or.inr ⟨by exact_mod_cast h2, Or.inl (neg_lt_neg_iff.mp h3)⟩⟩
    exact_mod_cast neg_inj.mp h1
  · refine Or.inr ⟨?_, Or.inr ⟨by exact_mod_cast h2,
      Or.inr ⟨neg_inj.mp h3, ?_⟩⟩⟩
    · exact_mod_cast neg_inj.mp h1
    · exact lt_of_le_of_ne (by exact_mod_cast h4) hne

/-! ## Membership lemmas for the ranker -/

theorem mem_withIdx {p : Nat × α} :
    ∀ (n : Nat) (l : List α), p ∈ withIdx n l → p.2 ∈ l := by
  intro n l
  induction l generalizing n with
  | nil => intro h; cases h
  | cons a as ih =>
    intro h
    rcases List.mem_cons.mp h with h | h
    · subst h; exact List.mem_cons_self a as
    · exact List.mem_cons_of_mem _ (ih _ h)

theorem fst_ge_withIdx {p : Nat × α} :
    ∀ (n : Nat) (l : List α), p ∈ withIdx n l → n ≤ p.1 := by
  intro n l
  induction l generalizing n with
  | nil => intro h; cases h
  | cons a as ih =>
    intro h
    rcases List.mem_cons.mp h with h | h
    · subst h; exact le_refl n
    · exact (Nat.le_succ n).trans (ih _ h)

theorem pairwise_lt_withIdx :
    ∀ (n : Nat) (l : List α), (withIdx n l).Pairwise (fun p q => p.1 < q.1) := by
  intro n l
  induction l generalizing n with
  | nil => exact List.Pairwise.nil
  | cons a as ih =>
    refine List.Pairwise.cons ?_ (ih (n + 1))
    intro q hq
    exact Nat.lt_of_succ_le (fst_ge_withIdx (n + 1) as hq)

theorem mem_rankIndexed {dets : List RawDetection} {ctx : FrameContext}
    {p : Nat × AnnotatedDetection} (h : p ∈ rankIndexed dets ctx) :
    ∃ q ∈ keptOf dets ctx, p = (q.1, annotateDet q.2 ctx) := by
  unfold rankIndexed at h
  have h1 := List.mem_of_mem_take h
  have h2 := (List.perm_insertionSort rankLe _).mem_iff.mp h1
  rcases List.mem_map.mp h2 with ⟨q, hq, hEq⟩
  exact ⟨q, hq, hEq.symm⟩

theorem mem_rank_spec {dets : List RawDetection} {ctx : FrameContext}
    {a : AnnotatedDetection} (h : a ∈ rank dets ctx) :
    ∃ d ∈ dets, ctx.min_confidence ≤ d.confidence ∧
      is_relevant d.class_name = true ∧ a = annotateDet d ctx := by
  rcases List.mem_map.mp h with ⟨p, hp, rfl⟩
  rcases mem_rankIndexed hp with ⟨q, hq, rfl⟩
  rcases List.mem_filter.mp hq with ⟨hmem, hcond⟩
  simp only [Bool.and_eq_true] at hcond
  rcases hcond with ⟨hconf, hrel⟩
  exact ⟨q.2, mem_withIdx _ _ hmem, of_decide_eq_true hconf, hrel, rfl⟩

theorem annotateDet_confidence (d : RawDetection) (ctx : FrameContext) :
    (annotateDet d ctx).confidence = d.confidence := rfl

theorem annotateDet_class (d : RawDetection) (ctx : FrameContext) :
    (annotateDet d ctx).class_name = d.class_name := rfl

/-! ## Claim C1 -/

/-- C1: every detection appearing in the ranked output of `rank`, or in the
annotated detection list of the `detect` response, has confidence at least
`min_confidence` and a navigation-relevant class; hence a detection below the
confidence threshold, or whose class is absent from the priority table, never
appears in either output. -/
theorem c1_filter_excludes (dets : List RawDetection) (w h minc : ℚ)
    (a : AnnotatedDetection)
    (hmem : a ∈ (detect dets w h minc).detections ∨ a ∈ rank dets ⟨w, h, minc⟩) :
    minc ≤ a.confidence ∧ is_relevant a.class_name = true := by
  have hmem' : a ∈ rank dets ⟨w, h, minc⟩ := by
    rcases hmem with h' | h'
    · exact h'
    · exact h'
  rcases mem_rank_spec hmem' with ⟨d, _, hconf, hrel, rfl⟩
  exact ⟨hconf, hrel⟩

set_option maxRecDepth 100000 in
/-- Witness for C1 at a concrete input: the annotated person detection of the
spec's scenario 7 is in the ranked output, and the theorem yields its
confidence and relevance facts. -/
theorem c1_filter_excludes_witness :
    (2 : ℚ)/5 ≤ (annotateDet ⟨"person", 89/100, ⟨120, 80, 340, 480⟩⟩
      ⟨640, 480, 2/5⟩).confidence ∧
    is_relevant (annotateDet ⟨"person", 89/100, ⟨120, 80, 340, 480⟩⟩
      ⟨640, 480, 2/5⟩).class_name = true :=
  c1_filter_excludes [⟨"person", 89/100, ⟨120, 80, 340, 480⟩⟩] 640 480 (2/5) _
    (Or.inr (by with_unfolding_all decide))

/-! ## Claim C2 -/

/-- C2: the ranked output has at most `maxDetections` (= 10) elements; with
original input indices attached, every earlier entry relates to every later
entry by strictly greater priority, or equal priority and strictly smaller
distance rank, or additionally equal distance rank and strictly larger
bounding-box area, with the original input index as final strict tie-breaker
(so the output order is uniquely determined by the input list); `rank` itself
is the index-erased projection of that indexed list. -/
theorem c2_cap_and_ordering (dets : List RawDetection) (ctx : FrameContext) :
    (rank dets ctx).length ≤ maxDetections ∧
    (rankIndexed dets ctx).Pairwise rankAfter ∧
    rank dets ctx = (rankIndexed dets ctx).map Prod.snd := by
  refine ⟨?_, ?_, rfl⟩
  · have : (rank dets ctx).length = (rankIndexed dets ctx).length :=
      List.length_map _ _
    rw [this]
    unfold rankIndexed
    exact List.length_take_le _ _
  · have hsorted : List.Pairwise rankLe
        (List.insertionSort rankLe
          ((keptOf dets ctx).map (fun p => (p.1, annotateDet p.2 ctx)))) :=
      List.sorted_insertionSort rankLe _
    have hkept : (keptOf dets ctx).Pairwise (fun p q => p.1 < q.1) :=
      (pairwise_lt_withIdx 0 dets).filter _
    have hmapped : ((keptOf dets ctx).map
        (fun p => (p.1, annotateDet p.2 ctx))).Pairwise
          (fun p q => p.1 ≠ q.1) := by
      refine List.pairwise_map.mpr ?_
      exact hkept.imp (fun h => Nat.ne_of_lt h)
    have hne : List.Pairwise (fun p q : Nat × AnnotatedDetection => p.1 ≠ q.1)
        (List.insertionSort rankLe
          ((keptOf dets ctx).map (fun p => (p.1, annotateDet p.2 ctx)))) :=
      ((List.perm_insertionSort rankLe _).pairwise_iff
        (fun h => Ne.symm h)).mpr hmapped
    have hboth : (rankIndexed dets ctx).Pairwise
        (fun a b => rankLe a b ∧ a.1 ≠ b.1) := by
      unfold rankIndexed
      exact List.Pairwise.sublist (List.take_sublist _ _) (hsorted.and hne)
    exact hboth.imp (fun hab => rankLe_strict hab.1 hab.2)

/-! ## Claim C3 -/

/-- C3 counterexample: for the spec's scenario 7 (person at bbox
(120,80,340,480) in a 640x480 frame) the area quotient `area_ratio`
(`bbox_area / frame_area` per spec section 4.1) equals
220*400 / (640*480) = 55/192 ≈ 0.286, which is not ≈ 0.478 (it is not even
within 0.1 of 0.478), so the claim's stated value is false. -/
theorem c3_area_counterexample :
    areaFrac ⟨120, 80, 340, 480⟩ 640 480 = 55/192 ∧
    ¬ |areaFrac ⟨120, 80, 340, 480⟩ 640 480 - 478/1000| < 1/10 := by
  have h : areaFrac ⟨120, 80, 340, 480⟩ 640 480 = 55/192 := by
    with_unfolding_all decide
  refine ⟨h, ?_⟩
  rw [h, abs_sub_lt_iff]
  intro hc
  have := hc.2
  norm_num at this

set_option maxRecDepth 400000 in
/-- C3 amended: same scenario with the correct area quotient: one person at
bbox (120,80,340,480), confidence 0.89, in a 640x480 frame with
min_confidence 0.4 classifies as position `center` with
`area_ratio = 55/192 ≈ 0.286`; since 55/192 > 1/4 the distance is `close`,
and the detect message contains "Person" and the close-distance phrasing
"right in front of you". -/
theorem c3_scenario_amended :
    positionOf ⟨120, 80, 340, 480⟩ 640 = Position.center ∧
    areaFrac ⟨120, 80, 340, 480⟩ 640 480 = 55/192 ∧
    closeThr < 55/192 ∧
    distanceOf ⟨120, 80, 340, 480⟩ 640 480 = Distance.close ∧
    strHasSub (detect [⟨"person", 89/100, ⟨120, 80, 340, 480⟩⟩]
      640 480 (2/5)).message "Person" = true ∧
    strHasSub (detect [⟨"person", 89/100, ⟨120, 80, 340, 480⟩⟩]
      640 480 (2/5)).message "right in front of you" = true := by
  with_unfolding_all decide

/-! ## Claim C4 -/

/-- C4: `compose` of the empty ranked set is exactly the guidance message
"Path appears clear." (with no query echoed); `rank` of the empty list is the
empty ranked set, and `rank` of a list whose detections all fall below the
confidence threshold or have irrelevant classes is also the empty ranked set
— both are ordinary values, not errors, and `rank`/`compose` are total. -/
theorem c4_empty_is_normal (ctx : FrameContext) (dets : List RawDetection)
    (hall : ∀ d ∈ dets,
      d.confidence < ctx.min_confidence ∨ is_relevant d.class_name = false) :
    compose [] = { text := "Path appears clear.", query := none } ∧
    rank [] ctx = [] ∧ rank dets ctx = [] := by
  refine ⟨rfl, rfl, ?_⟩
  have hk : keptOf dets ctx = [] := by
    unfold keptOf
    rw [List.filter_eq_nil_iff]
    intro p hp hcond
    simp only [Bool.and_eq_true, decide_eq_true_eq] at hcond
    rcases hall p.2 (mem_withIdx _ _ hp) with hlow | hirr
    · exact absurd hcond.1 hlow.not_le
    · rw [hirr] at hcond; exact Bool.false_ne_true hcond.2
  unfold rank rankIndexed
  rw [hk]
  rfl

/-- Witness for C4 at concrete inputs: a low-confidence person and a
full-confidence airplane (class absent from the table) are both filtered out,
leaving the empty ranked set. -/
theorem c4_empty_is_normal_witness :
    compose [] = { text := "Path appears clear.", query := none } ∧
    rank [] ⟨640, 480, 2/5⟩ = [] ∧
    rank [⟨"person", 1/5, ⟨0, 0, 10, 10⟩⟩, ⟨"airplane", 1, ⟨0, 0, 10, 10⟩⟩]
      ⟨640, 480, 2/5⟩ = [] :=
  c4_empty_is_normal ⟨640, 480, 2/5⟩ _ (by with_unfolding_all decide)

/-! ## Claim C5 -/

/-- C5: the engine is deterministic — `rank`, `compose` and `answer` are pure
functions of their arguments, so identical inputs always yield identical
outputs (in this embedding all three are total functions, so the property is
definitional: no randomness or hidden state exists to vary the result). -/
theorem c5_deterministic (dets dets' : List RawDetection)
    (ctx ctx' : FrameContext) (r r' : List AnnotatedDetection) (q q' : String)
    (h1 : dets = dets') (h2 : ctx = ctx') (h3 : r = r') (h4 : q = q') :
    rank dets ctx = rank dets' ctx' ∧ compose r = compose r' ∧
    answer q r = answer q' r' := by
  subst h1; subst h2; subst h3; subst h4
  exact ⟨rfl, rfl, rfl⟩

/-- Witness for C5 at concrete inputs. -/
theorem c5_deterministic_witness :
    rank [⟨"person", 89/100, ⟨120, 80, 340, 480⟩⟩] ⟨640, 480, 2/5⟩ =
      rank [⟨"person", 89/100, ⟨120, 80, 340, 480⟩⟩] ⟨640, 480, 2/5⟩ ∧
    compose [] = compose [] ∧
    answer "Is there a person nearby?" [] = answer "Is there a person nearby?" [] :=
  c5_deterministic _ _ ⟨640, 480, 2/5⟩ ⟨640, 480, 2/5⟩ [] [] _ _ rfl rfl rfl rfl

/-! ## Claim C6 -/

/-- C6: intent classification evaluates fixed keyword predicates on the
lowercased query in a fixed priority order — the person keywords
("person"/"people") first, then the obstacle keywords
("obstacle"/"ahead"/"front") — and otherwise falls back to
`general_description`; consequently for every query string the result is
never the `unrecognized` intent, so an UnrecognizedQuery error cannot be
raised. -/
theorem c6_intent_fallback (q : String) :
    (personKw q = true → classifyIntent q = QueryIntent.person_presence) ∧
    (personKw q = false → obstacleKw q = true →
      classifyIntent q = QueryIntent.obstacle_presence) ∧
    (personKw q = false → obstacleKw q = false →
      classifyIntent q = QueryIntent.general_description) ∧
    classifyIntent q ≠ QueryIntent.unrecognized := by
  refine ⟨fun h1 => by simp [classifyIntent, h1],
    fun h1 h2 => by simp [classifyIntent, h1, h2],
    fun h1 h2 => by simp [classifyIntent, h1, h2], ?_⟩
  cases h1 : personKw q <;> cases h2 : obstacleKw q <;>
    simp [classifyIntent, h1, h2]

/-- Witness for C6 at concrete queries, one per intent. -/
theorem c6_intent_fallback_witness :
    classifyIntent "Is there a person nearby?" = QueryIntent.person_presence ∧
    classifyIntent "Any obstacles?" = QueryIntent.obstacle_presence ∧
    classifyIntent "What do you see" = QueryIntent.general_description :=
  ⟨(c6_intent_fallback "Is there a person nearby?").1 (by decide),
   (c6_intent_fallback "Any obstacles?").2.1 (by decide) (by decide),
   (c6_intent_fallback "What do you see").2.2.1 (by decide) (by decide)⟩

/-! ## Claim C7 -/

/-- C7: for the query "Is there a person nearby?" against any ranked set
containing no detection of class "person", `answer` returns exactly the
message "No people detected nearby." with the query echoed back verbatim. -/
theorem c7_no_person_answer (r : List AnnotatedDetection)
    (h : ∀ d ∈ r, d.class_name ≠ "person") :
    answer "Is there a person nearby?" r =
      { text := "No people detected nearby.",
        query := some "Is there a person nearby?" } := by
  have hint : classifyIntent "Is there a person nearby?" =
      QueryIntent.person_presence := by decide
  have hfil : r.filter (fun d => d.class_name == "person") = [] := by
    rw [List.filter_eq_nil_iff]
    intro d hd hbeq
    exact h d hd (by rwa [beq_iff_eq] at hbeq)
  simp only [answer, hint, hfil]

/-- Witness for C7: a ranked set holding one far-away chair contains no
person, and the query gets the fixed negative answer. -/
theorem c7_no_person_answer_witness :
    answer "Is there a person nearby?"
      [⟨"chair", 1/2, ⟨0, 0, 50, 50⟩, Position.left, Distance.far, 7, (25, 25)⟩] =
      { text := "No people detected nearby.",
        query := some "Is there a person nearby?" } :=
  c7_no_person_answer _ (by decide)

/-! ## Length bounds for the composed text (towards claim C8) -/

theorem capWord_length (s : String) : (capWord s).length = s.length := by
  obtain ⟨l⟩ := s
  cases l with
  | nil => rfl
  | cons c cs => rfl

theorem str_ne_empty {s : String} (h : 0 < s.length) : s ≠ "" := by
  intro he
  rw [he] at h
  exact absurd h (by decide)

theorem countWord_length {n : Nat} (h : n ≤ 10) : (countWord n).length ≤ 5 := by
  interval_cases n <;> decide

theorem natRepr_length {n : Nat} (h : n ≤ 10) : (toString n).length ≤ 2 := by
  interval_cases n <;> decide

theorem pluralOf_length {c : String} (h : c.length ≤ 13) :
    (pluralOf c).length ≤ 14 := by
  unfold pluralOf
  split
  · decide
  · rw [String.length_append]
    have h1 : ("s" : String).length = 1 := rfl
    omega

theorem posPhrase_length (p : Position) : (posPhrase p).length ≤ 14 := by
  cases p <;> decide

theorem distPhrase_length (d : Distance) : (distPhrase d).length ≤ 21 := by
  cases d <;> decide

theorem clauseText_length {n : Nat} {k : String × Position × Distance}
    (hn : n ≤ 10) (hc : k.1.length ≤ 13) : (clauseText n k).length ≤ 56 := by
  unfold clauseText
  rw [capWord_length, String.length_append, String.length_append,
    String.length_append]
  have hpos := posPhrase_length k.2.1
  have hdist := distPhrase_length k.2.2
  have hsp : (" " : String).length = 1 := rfl
  have hname : (if n ≤ 1 then k.1
      else countWord n ++ " " ++ pluralOf k.1).length ≤ 20 := by
    split
    · omega
    · rw [String.length_append, String.length_append]
      have h1 := countWord_length hn
      have h2 := pluralOf_length hc
      omega
  omega

theorem joinClauses_length :
    ∀ l : List String, (∀ s ∈ l, s.length ≤ 56) →
      (joinClauses l).length ≤ 58 * l.length := by
  intro l
  induction l with
  | nil => intro; simp [joinClauses]
  | cons c cs ih =>
    intro hall
    have hc := hall c (List.mem_cons_self c cs)
    cases cs with
    | nil =>
      show (joinClauses [c]).length ≤ 58 * 1
      simp only [joinClauses]
      omega
    | cons d ds =>
      have hrest := ih (fun s hs => hall s (List.mem_cons_of_mem c hs))
      show (c ++ ". " ++ joinClauses (d :: ds)).length ≤ _
      rw [String.length_append, String.length_append]
      have h2 : (". " : String).length = 2 := rfl
      simp only [List.length_cons] at hrest ⊢
      omega

theorem dedupFirst_length_le [BEq κ] :
    ∀ (l seen : List κ), (dedupFirst seen l).length ≤ l.length := by
  intro l
  induction l with
  | nil => intro seen; simp [dedupFirst]
  | cons k ks ih =>
    intro seen
    simp only [dedupFirst]
    split
    · exact (ih seen).trans (Nat.le_succ _)
    · simpa using Nat.succ_le_succ (ih (k :: seen))

theorem mem_dedupFirst [BEq κ] {k : κ} :
    ∀ (l seen : List κ), k ∈ dedupFirst seen l → k ∈ l := by
  intro l
  induction l with
  | nil => intro seen h; cases h
  | cons a as ih =>
    intro seen h
    simp only [dedupFirst] at h
    split at h
    · exact List.mem_cons_of_mem _ (ih seen h)
    · rcases List.mem_cons.mp h with h | h
      · subst h; exact List.mem_cons_self _ _
      · exact List.mem_cons_of_mem _ (ih _ h)

theorem clausesOf_length_le (l : List AnnotatedDetection) :
    (clausesOf l).length ≤ l.length := by
  unfold clausesOf
  rw [List.length_map]
  exact (dedupFirst_length_le _ _).trans (le_of_eq (List.length_map _ _))

theorem clausesOf_each_bound {l : List AnnotatedDetection}
    (hcls : ∀ d ∈ l, d.class_name.length ≤ 13) (hlen : l.length ≤ 10) :
    ∀ s ∈ clausesOf l, s.length ≤ 56 := by
  intro s hs
  unfold clausesOf at hs
  rcases List.mem_map.mp hs with ⟨k, hk, rfl⟩
  have hkmem : k ∈ l.map detKey := mem_dedupFirst _ _ hk
  rcases List.mem_map.mp hkmem with ⟨d, hd, rfl⟩
  refine clauseText_length ?_ (hcls d hd)
  calc (l.map detKey).count (detKey d) ≤ (l.map detKey).length :=
        List.count_le_length _ _
    _ = l.length := List.length_map _ _
    _ ≤ 10 := hlen

/-- The narrated non-empty text: joined clauses of the top 3 entries plus
terminal punctuation. Bounds: positive length, at most 175 characters. -/
theorem narrate_length {r : List AnnotatedDetection}
    (hcls : ∀ d ∈ r, d.class_name.length ≤ 13) :
    0 < (joinClauses (clausesOf (r.take 3)) ++ ".").length ∧
      (joinClauses (clausesOf (r.take 3)) ++ ".").length ≤ 175 := by
  have h1 : ∀ s ∈ clausesOf (r.take 3), s.length ≤ 56 := by
    refine clausesOf_each_bound (fun d hd => hcls d (List.mem_of_mem_take hd)) ?_
    exact (List.length_take_le _ _).trans (by omega)
  have h2 := joinClauses_length _ h1
  have h3 : (clausesOf (r.take 3)).length ≤ 3 :=
    (clausesOf_length_le _).trans (List.length_take_le _ _)
  rw [String.length_append]
  have h4 : ("." : String).length = 1 := rfl
  omega

theorem composeText_length {r : List AnnotatedDetection}
    (hcls : ∀ d ∈ r, d.class_name.length ≤ 13) :
    0 < (composeText r).length ∧ (composeText r).length ≤ 200 := by
  unfold composeText
  split
  · exact ⟨by decide, by decide⟩
  · have := narrate_length hcls
    omega

theorem relevant_class_length {c : String} (h : is_relevant c = true) :
    c.length ≤ 13 := by
  unfold is_relevant at h
  rw [List.any_eq_true] at h
  rcases h with ⟨e, he, heq⟩
  rw [beq_iff_eq] at heq
  fin_cases he <;> (rw [← heq]; decide)

theorem rank_class_length {dets : List RawDetection} {ctx : FrameContext} :
    ∀ a ∈ rank dets ctx, a.class_name.length ≤ 13 := by
  intro a ha
  rcases mem_rank_spec ha with ⟨d, _, _, hrel, rfl⟩
  exact relevant_class_length hrel

theorem rank_length_le (dets : List RawDetection) (ctx : FrameContext) :
    (rank dets ctx).length ≤ 10 := by
  have h : (rank dets ctx).length = (rankIndexed dets ctx).length :=
    List.length_map _ _
  rw [h]
  unfold rankIndexed
  exact List.length_take_le _ _

theorem composeText_take3 (r : List AnnotatedDetection) :
    composeText r = composeText (r.take 3) := by
  unfold composeText
  by_cases h : r = []
  · simp [h]
  · have h2 : r.take 3 ≠ [] := by
      intro hc
      rcases List.take_eq_nil_iff.mp hc with h3 | h3
      · exact absurd h3 (by decide)
      · exact h h3
    rw [if_neg h, if_neg h2, List.take_take]
    norm_num

/-- Exhaustive description of the text field produced by `answer`. -/
theorem answer_text_cases (q : String) (r : List AnnotatedDetection) :
    (answer q r).text = "No people detected nearby." ∨
    (∃ p ps, r.filter (fun d => d.class_name == "person") = p :: ps ∧
      (answer q r).text = "Yes, " ++ toString (p :: ps).length ++
        " person(s) detected. " ++ clauseText (p :: ps).length
          ("person", p.position, p.distance) ++ ".") ∨
    (answer q r).text = "No obstacles detected." ∨
    (answer q r).text = joinClauses (clausesOf (r.take 3)) ++ "." ∨
    (answer q r).text = composeText r := by
  cases hI : classifyIntent q with
  | person_presence =>
    cases hf : r.filter (fun d => d.class_name == "person") with
    | nil => left; simp [answer, hI, hf]
    | cons p ps =>
      right; left
      exact ⟨p, ps, rfl, by simp [answer, hI, hf]⟩
  | obstacle_presence =>
    by_cases hr : r = []
    · right; right; left; simp [answer, hI, hr]
    · right; right; right; left; simp [answer, hI, hr]
  | general_description =>
    right; right; right; right; simp [answer, hI]
  | unrecognized =>
    right; right; right; right; simp [answer, hI]

/-! ## Claim C8 -/

/-- C8: for every ranked output of `rank`, the guidance text produced by
`compose` is non-empty and at most 200 characters; `compose` depends only on
the top 3 ranked entries (detections beyond the third never influence the
narrated text, remaining visible only in the structured detection list); and
the text produced by `answer` through the same clause logic is likewise
non-empty and at most 200 characters. -/
theorem c8_message_bounds (dets : List RawDetection) (ctx : FrameContext)
    (q : String) :
    (compose (rank dets ctx)).text ≠ "" ∧
    (compose (rank dets ctx)).text.length ≤ 200 ∧
    compose (rank dets ctx) = compose ((rank dets ctx).take 3) ∧
    (answer q (rank dets ctx)).text ≠ "" ∧
    (answer q (rank dets ctx)).text.length ≤ 200 := by
  have hcls := @rank_class_length dets ctx
  have hlen := rank_length_le dets ctx
  have hcomp := composeText_length hcls
  have hans : 0 < (answer q (rank dets ctx)).text.length ∧
      (answer q (rank dets ctx)).text.length ≤ 200 := by
    rcases answer_text_cases q (rank dets ctx) with h | ⟨p, ps, hf, h⟩ | h | h | h
    · rw [h]; exact ⟨by decide, by decide⟩
    · rw [h]
      have hn : (p :: ps).length ≤ 10 := by
        rw [← hf]
        exact (List.length_filter_le _ _).trans hlen
      have hclause := clauseText_length (n := (p :: ps).length)
        (k := ("person", p.position, p.distance)) hn
        (show ("person" : String).length ≤ 13 by decide)
      have hrepr := natRepr_length hn
      rw [String.length_append, String.length_append, String.length_append,
        String.length_append]
      have c1 : ("Yes, " : String).length = 5 := rfl
      have c2 : (" person(s) detected. " : String).length = 21 := rfl
      have c3 : ("." : String).length = 1 := rfl
      omega
    · rw [h]; exact ⟨by decide, by decide⟩
    · rw [h]
      have hb := narrate_length hcls
      exact ⟨hb.1, hb.2.trans (by omega)⟩
    · rw [h]; exact ⟨hcomp.1, hcomp.2⟩
  refine ⟨str_ne_empty hcomp.1, hcomp.2, ?_, str_ne_empty hans.1, hans.2⟩
  unfold compose
  rw [composeText_take3 (rank dets ctx)]

/-! ## Claim C9 -/

/-- Invariant of the frontend loop: if the spoken log has no two equal
adjacent entries and its last entry (when it exists) equals `lastMessage`,
both facts persist through any sequence of detection results. -/
theorem runLoop_chain (msgs : List String) :
    ∀ st : UIState, st.spoken.Chain' (· ≠ ·) →
      (∀ x, st.spoken.getLast? = some x → x = st.lastMessage) →
      (runLoop st msgs).spoken.Chain' (· ≠ ·) := by
  induction msgs with
  | nil => intro st h1 _; exact h1
  | cons m ms ih =>
    intro st h1 h2
    show (runLoop (handleDetectionResult st m) ms).spoken.Chain' _
    apply ih
    · unfold handleDetectionResult
      split
      · rename_i hne
        refine List.chain'_append.mpr ⟨h1, List.chain'_singleton m, ?_⟩
        intro x hx y hy
        simp only [List.head?_cons, Option.mem_def, Option.some.injEq] at hy
        subst hy
        intro hxm
        exact hne ((h2 x hx ▸ hxm : st.lastMessage = m).symm)
      · exact h1
    · unfold handleDetectionResult
      split
      · rename_i hne
        intro x hx
        rw [List.getLast?_concat] at hx
        exact (Option.some.injEq _ _ ▸ hx).symm
      · rename_i hne
        intro x hx
        exact h2 x hx

/-- C9: at the UI boundary, `handleDetectionResult` speaks the incoming
message (appends it to the spoken log) iff it differs from the previously
handled message `lastMessage`, it leaves the log unchanged iff the message is
identical, it always records the message as the new `lastMessage` and always
displays it; consequently the detection loop, started from an empty spoken
log, never speaks the same text twice in a row. -/
theorem c9_speak_only_on_change (st : UIState) (m lm disp : String)
    (msgs : List String) :
    ((handleDetectionResult st m).spoken = st.spoken ++ [m] ↔
      m ≠ st.lastMessage) ∧
    ((handleDetectionResult st m).spoken = st.spoken ↔ m = st.lastMessage) ∧
    (handleDetectionResult st m).lastMessage = m ∧
    (handleDetectionResult st m).displayed = m ∧
    (runLoop ⟨lm, disp, []⟩ msgs).spoken.Chain' (· ≠ ·) := by
  have hself : st.spoken ≠ st.spoken ++ [m] := by
    intro hc
    have := congrArg List.length hc
    simp at this
  refine ⟨?_, ?_, ?_, ?_, ?_⟩
  · unfold handleDetectionResult
    split
    · rename_i hne
      exact ⟨fun _ => hne, fun _ => rfl⟩
    · rename_i hne
      rw [not_ne_iff] at hne
      exact ⟨fun hc => absurd hc hself, fun hmne => absurd hne hmne⟩
  · unfold handleDetectionResult
    split
    · rename_i hne
      exact ⟨fun hc => absurd hc.symm hself, fun hc => absurd hc hne⟩
    · rename_i hne
      rw [not_ne_iff] at hne
      exact ⟨fun _ => hne, fun _ => rfl⟩
  · unfold handleDetectionResult
    split
    · rfl
    · rename_i hne
      rw [not_ne_iff] at hne
      exact hne.symm
  · unfold handleDetectionResult
    split <;> rfl
  · refine runLoop_chain msgs _ List.chain'_nil ?_
    intro x hx
    simp at hx

/-! ## Claim C10 -/

/-- C10: `askQuestion` alerts and sends no request when the VisionGuide
instance is absent or not running; and whenever it does issue a request, the
instance exists, is running, and the request URL is the API URL extended with
`/detect-with-query?query=` followed by the URL-encoded query string. -/
theorem c10_askQuestion_guard (guide : Option Guide) (query : String) :
    askQuestion none query = AskOutcome.alerted ∧
    (∀ g : Guide, g.isRunning = false →
      askQuestion (some g) query = AskOutcome.alerted) ∧
    (∀ url, askQuestion guide query = AskOutcome.requested url →
      ∃ g, guide = some g ∧ g.isRunning = true ∧
        url = g.apiUrl ++ "/detect-with-query?query=" ++
          encodeURIComponent query) := by
  refine ⟨rfl, ?_, ?_⟩
  · intro g hg
    simp [askQuestion, hg]
  · intro url h
    cases guide with
    | none => simp [askQuestion] at h
    | some g =>
      cases hg : g.isRunning with
      | false => simp [askQuestion, hg] at h
      | true =>
        simp only [askQuestion, hg, Bool.not_true, Bool.false_eq_true,
          if_false, AskOutcome.requested.injEq] at h
        exact ⟨g, rfl, hg, h.symm⟩

/-- Witness for C10 at concrete inputs: a stopped instance yields an alert;
a running instance yields a request to the encoded URL. -/
theorem c10_askQuestion_guard_witness :
    askQuestion (some ⟨false, "http://localhost:8000"⟩) "Any obstacles?" =
      AskOutcome.alerted ∧
    (∃ g, (some (⟨true, "http://localhost:8000"⟩ : Guide)) = some g ∧
      g.isRunning = true ∧
      "http://localhost:8000/detect-with-query?query=Any%20obstacles%3F" =
        g.apiUrl ++ "/detect-with-query?query=" ++
          encodeURIComponent "Any obstacles?") :=
  ⟨(c10_askQuestion_guard (some ⟨false, "http://localhost:8000"⟩)
      "Any obstacles?").2.1 _ rfl,
   (c10_askQuestion_guard (some ⟨true, "http://localhost:8000"⟩)
      "Any obstacles?").2.2 _ (by decide)⟩

end VisionGuide
